import Mathlib

/-!
Verification of the probe / strategy-dispatch / streaming-download / manifest
pipeline of the elite-dangerous-dev ETL repository.

The Python sources are shallowly embedded: bytes are `Nat` values (0..255),
byte strings are `List Nat`, Python `dict`s are association lists with
insert-or-overwrite semantics, `datetime.now()` is an abstract `Nat` clock
value passed explicitly at each call site, and a raised Python exception is
the `Except.error` case of an explicit `PyExn` value carrying the exception
class name and message.
-/

namespace ED

/-- A single-quote character as a string (used inside Python error messages). -/
def sq : String := String.mk [Char.ofNat 39]

/-- Python exceptions that the embedded code can raise.  Each constructor is
one exception class that actually occurs in the modelled sources; `httpxError`
carries the concrete httpx exception class name (ConnectError, TimeoutException,
...) together with its message. -/
inductive PyExn where
  | valueError (msg : String)
  | typeError (msg : String)
  | attributeError (msg : String)
  | validationError (msg : String)
  | httpxError (name : String) (msg : String)
  deriving Repr, DecidableEq

/-- `type(e).__name__` for an embedded exception. -/
def PyExn.className : PyExn → String
  | .valueError _ => "ValueError"
  | .typeError _ => "TypeError"
  | .attributeError _ => "AttributeError"
  | .validationError _ => "ValidationError"
  | .httpxError n _ => n

/-- Message of an embedded exception (`str(e)`). -/
def PyExn.message : PyExn → String
  | .valueError m => m
  | .typeError m => m
  | .attributeError m => m
  | .validationError m => m
  | .httpxError _ m => m

/-! ## SHA-256 (embedding of `hashlib.sha256`)

`hashlib.sha256` is embedded concretely: the accumulator state is the list of
bytes fed so far via `update`, and `hexdigest` is the FIPS 180-4 SHA-256
digest of that byte sequence rendered as 64 lowercase hex characters. -/

/-- Truncate to a 32-bit word. -/
def w32 (n : Nat) : Nat := n % 4294967296

/-- 32-bit right rotation. -/
def rotr32 (x n : Nat) : Nat := w32 ((x >>> n) ||| (x <<< (32 - n)))

def sigmaSmall0 (x : Nat) : Nat := (rotr32 x 7) ^^^ (rotr32 x 18) ^^^ (x >>> 3)

def sigmaSmall1 (x : Nat) : Nat := (rotr32 x 17) ^^^ (rotr32 x 19) ^^^ (x >>> 10)

def sigmaBig0 (x : Nat) : Nat := (rotr32 x 2) ^^^ (rotr32 x 13) ^^^ (rotr32 x 22)

def sigmaBig1 (x : Nat) : Nat := (rotr32 x 6) ^^^ (rotr32 x 11) ^^^ (rotr32 x 25)

/-- The 64 SHA-256 round constants (FIPS 180-4, in decimal). -/
def sha256K : List Nat :=
  [1116352408, 1899447441, 3049323471, 3921009573, 961987163, 1508970993,
   2453635748, 2870763221, 3624381080, 310598401, 607225278, 1426881987,
   1925078388, 2162078206, 2614888103, 3248222580, 3835390401, 4022224774,
   264347078, 604807628, 770255983, 1249150122, 1555081692, 1996064986,
   2554220882, 2821834349, 2952996808, 3210313671, 3336571891, 3584528711,
   113926993, 338241895, 666307205, 773529912, 1294757372, 1396182291,
   1695183700, 1986661051, 2177026350, 2456956037, 2730485921, 2820302411,
   3259730800, 3345764771, 3516065817, 3600352804, 4094571909, 275423344,
   430227734, 506948616, 659060556, 883997877, 958139571, 1322822218,
   1537002063, 1747873779, 1955562222, 2024104815, 2227730452, 2361852424,
   2428436474, 2756734187, 3204031479, 3329325298]

/-- The initial SHA-256 hash value (FIPS 180-4, in decimal). -/
def sha256H0 : List Nat :=
  [1779033703, 3144134277, 1013904242, 2773480762,
   1359893119, 2600822924, 528734635, 1541459225]

/-- Big-endian byte expansion: `beBytes n x` is the `n` lowest bytes of `x`,
most significant first. -/
def beBytes : Nat → Nat → List Nat
  | 0, _ => []
  | n + 1, x => beBytes n (x / 256) ++ [x % 256]

/-- SHA-256 padding: append `0x80`, zero bytes up to 56 mod 64, then the
message bit length as 8 big-endian bytes. -/
def sha256Pad (msg : List Nat) : List Nat :=
  let padZeros := (119 - msg.length % 64) % 64
  msg ++ [0x80] ++ List.replicate padZeros 0 ++ beBytes 8 (8 * msg.length)

/-- Split a list into consecutive sublists of length `n`. -/
def chunksOf (n : Nat) : List Nat → List (List Nat)
  | [] => []
  | x :: xs =>
    if _h : n = 0 then [] else
    (x :: xs).take n :: chunksOf n ((x :: xs).drop n)
  termination_by l => l.length
  decreasing_by
    simp only [List.length_drop, List.length_cons]
    omega

/-- Combine 4 bytes (big-endian) into a 32-bit word, folding over the list. -/
def bytesToWord (bs : List Nat) : Nat := bs.foldl (fun acc b => acc * 256 + b) 0

/-- Extend the 16 block words to the 64-entry message schedule: `n` is the
number of remaining extension rounds (48 at the start). -/
def sha256Extend : Nat → List Nat → List Nat
  | 0, ws => ws
  | n + 1, ws =>
    let i := ws.length
    let wNew := w32 (sigmaSmall1 (ws.getD (i - 2) 0) + ws.getD (i - 7) 0 +
                     sigmaSmall0 (ws.getD (i - 15) 0) + ws.getD (i - 16) 0)
    sha256Extend n (ws ++ [wNew])

/-- Working state of the SHA-256 compression function. -/
structure Hash8 where
  a : Nat
  b : Nat
  c : Nat
  d : Nat
  e : Nat
  f : Nat
  g : Nat
  h : Nat
  deriving Repr, DecidableEq

def hash8OfList (l : List Nat) : Hash8 :=
  ⟨l.getD 0 0, l.getD 1 0, l.getD 2 0, l.getD 3 0, l.getD 4 0, l.getD 5 0, l.getD 6 0, l.getD 7 0⟩

def hash8ToList (s : Hash8) : List Nat := [s.a, s.b, s.c, s.d, s.e, s.f, s.g, s.h]

/-- One SHA-256 compression round with round constant `k` and schedule word `w`. -/
def sha256Round (st : Hash8) (kw : Nat × Nat) : Hash8 :=
  let ch := (st.e &&& st.f) ^^^ ((st.e ^^^ 0xffffffff) &&& st.g)
  let maj := (st.a &&& st.b) ^^^ (st.a &&& st.c) ^^^ (st.b &&& st.c)
  let temp1 := w32 (st.h + sigmaBig1 st.e + ch + kw.1 + kw.2)
  let temp2 := w32 (sigmaBig0 st.a + maj)
  ⟨w32 (temp1 + temp2), st.a, st.b, st.c, w32 (st.d + temp1), st.e, st.f, st.g⟩

/-- Compress one 64-byte block into the running hash value. -/
def sha256Block (hv : List Nat) (block : List Nat) : List Nat :=
  let ws := sha256Extend 48 ((chunksOf 4 block).map bytesToWord)
  let st := (sha256K.zip ws).foldl sha256Round (hash8OfList hv)
  List.zipWith (fun x y => w32 (x + y)) hv (hash8ToList st)

/-- The SHA-256 digest of a byte list, as 8 32-bit words. -/
def sha256Words (msg : List Nat) : List Nat :=
  (chunksOf 64 (sha256Pad msg)).foldl sha256Block sha256H0

/-- Lowercase hex digit for a value below 16. -/
def hexDigitChar (n : Nat) : Char :=
  if n < 10 then Char.ofNat (48 + n) else Char.ofNat (87 + n)

/-- A 32-bit word as 8 lowercase hex characters. -/
def hexWord32 (x : Nat) : String :=
  String.mk ((List.range 8).map (fun i => hexDigitChar ((x >>> (28 - 4 * i)) &&& 15)))

/-- `hashlib.sha256(msg).hexdigest()`: 64 lowercase hex characters. -/
def sha256Hex (msg : List Nat) : String :=
  String.join ((sha256Words msg).map hexWord32)

/-! ## Gzip download regime
(`src/pipeline/etl/src/extractor/download/regimes/gzip.py`, `GzipRegime.download`)

The streaming loop is embedded as a fold over the list of chunks produced by
`response.iter_bytes(chunk_size=128 * 1024)`.  A completed, exception-free call
is one that processes the whole chunk list.  The loop state tracks both the
bytes fed into the running `hashlib.sha256` accumulator and the bytes written
to the destination file. -/

/-- State of the gzip streaming loop: bytes fed to the SHA-256 accumulator via
`sha256.update`, and bytes written to the destination file handle. -/
structure GzipLoopState where
  hashFed : List Nat
  fileBytes : List Nat
  deriving Repr, DecidableEq

/-- Loop state at entry: fresh `hashlib.sha256()` accumulator and a fresh file
opened with mode "wb" (truncated, no bytes written). -/
def gzipInit : GzipLoopState := ⟨[], []⟩

/-- One iteration of the chunk loop: `sha256.update(chunk)` then
`f.write(chunk)`, both on the same chunk before the next is fetched. -/
def gzipStep (s : GzipLoopState) (chunk : List Nat) : GzipLoopState :=
  { hashFed := s.hashFed ++ chunk, fileBytes := s.fileBytes ++ chunk }

/-- The loop state after processing all chunks of the response stream. -/
def gzipDownloadState (chunks : List (List Nat)) : GzipLoopState :=
  chunks.foldl gzipStep gzipInit

/-- `GzipRegime.download` on a completed stream: returns the value of
`sha256.hexdigest()` paired with the final content of the destination file. -/
def gzipRegimeDownload (chunks : List (List Nat)) : String × List Nat :=
  ((gzipDownloadState chunks).hashFed |> sha256Hex, (gzipDownloadState chunks).fileBytes)

/-! ## HTTP model and Source Prober
(`src/pipeline/etl/src/extractor/source_probe/prober.py`, `SourceProber.execute`;
`src/pipeline/etl/src/extractor/source_probe/model.py`, `ProbeResult`;
`src/pipeline/etl/src/extractor/source_probe/checksum_metadata.py`)

An httpx response is embedded as its status code, reason phrase, headers and
body; `headers.get(name)` is embedded as association-list lookup on the exact
header names used by the source (httpx normalises header-name case, which no
claim depends on).  The remote side is a `Network` value giving the outcome of
the HEAD request and of the ranged sample GET: either a response or a raised
transport exception. -/

/-- `headers.get(k)` / `dict.get(k)`: first value bound to `k`, if any. -/
def hget {α : Type} (hs : List (String × α)) (k : String) : Option α :=
  (hs.find? (fun p => p.1 == k)).map (fun p => p.2)

structure HttpResponse where
  status_code : Nat
  reason_phrase : String
  headers : List (String × String)
  content : List Nat
  deriving Repr, DecidableEq

/-- httpx `Response.is_error`: the status code is in 400..599. -/
def responseIsError (r : HttpResponse) : Bool :=
  400 ≤ r.status_code && r.status_code ≤ 599

/-- A raised httpx transport exception: class name and message. -/
structure NetExn where
  name : String
  msg : String
  deriving Repr, DecidableEq

def pyExnOfNet (e : NetExn) : PyExn := .httpxError e.name e.msg

/-- The remote behaviour seen by one `SourceProber.execute` call: outcome of
the HEAD request and outcome of the ranged sample GET. -/
structure Network where
  headResult : Except NetExn HttpResponse
  getResult : Except NetExn HttpResponse

/-- `ChecksumMetadata`: the checksum-bearing response headers. -/
structure ChecksumMetadata where
  digest : Option String
  content_digest : Option String
  repr_digest : Option String
  content_md5 : Option String
  etag : Option String
  goog_hash : Option String
  s3_sha256 : Option String
  deriving Repr, DecidableEq

/-- `ChecksumMetadata()`: all fields default to `None`. -/
def ChecksumMetadata.empty : ChecksumMetadata := ⟨none, none, none, none, none, none, none⟩

/-- `ChecksumMetadata.from_headers`. -/
def checksumFromHeaders (hs : List (String × String)) : ChecksumMetadata :=
  ⟨hget hs "Digest", hget hs "Content-Digest", hget hs "Repr-Digest", hget hs "Content-MD5",
   hget hs "ETag", hget hs "x-goog-hash", hget hs "x-amz-meta-sha256"⟩

/-- `ProbeResult` with its field defaults. -/
structure ProbeResult where
  url : String
  status_code : Nat
  content_length : Option Nat := none
  etag : Option String := none
  last_modified : Option String := none
  mime_type : String := "unknown"
  is_range_supported : Bool := false
  checksum_metadata : ChecksumMetadata := ChecksumMetadata.empty
  probe_error : Option String := none
  deriving Repr, DecidableEq

def digitsToNat (s : String) : Nat :=
  s.toList.foldl (fun n c => n * 10 + (c.toNat - 48)) 0

/-- Python `int(s)` on a header value (raises `ValueError` on a non-numeric
string). -/
def pyIntOfString (s : String) : Except PyExn Nat :=
  if !s.isEmpty && s.toList.all Char.isDigit then .ok (digitsToNat s)
  else .error (.valueError ("invalid literal for int() with base 10: " ++ sq ++ s ++ sq))

/-- `int(res_get.headers.get("Content-Length", 0))`. -/
def contentLengthValue (hs : List (String × String)) : Except PyExn Nat :=
  match hget hs "Content-Length" with
  | none => .ok 0
  | some s => pyIntOfString s

/-- The body of the `try` block of `SourceProber.execute` (prober.py lines
59-80): fetch the ranged sample, sniff the MIME type with libmagic when the
status is 200 or 206, and build the completed `ProbeResult`.  `sniff` embeds
`magic.from_buffer(..., mime=True)`.  An `Except.error` outcome is an
exception raised inside the `try` block. -/
def proberTryBody (sniff : List Nat → String) (getResult : Except NetExn HttpResponse)
    (resHead : HttpResponse) (url : String) (cm : ChecksumMetadata) (rangeSupported : Bool) :
    Except PyExn ProbeResult :=
  match getResult with
  | .error e => .error (pyExnOfNet e)
  | .ok resGet =>
    let mimeType := if resGet.status_code == 200 || resGet.status_code == 206
      then sniff resGet.content else "unknown"
    match contentLengthValue resGet.headers with
    | .error e => .error e
    | .ok cl =>
      .ok { url := url, status_code := resHead.status_code, content_length := some cl,
            last_modified := hget resHead.headers "Last-Modified", mime_type := mimeType,
            is_range_supported := rangeSupported, checksum_metadata := cm, probe_error := none }

/-- `SourceProber.execute`.  The HEAD request sits outside the `try` block, so
a transport exception raised by it propagates (`Except.error`); the `try`
covers only the sample fetch and the construction of the completed result, and
its `except (httpx.HTTPError, Exception)` clause converts any exception raised
there into the status-0 / mime "error" probe result. -/
def proberExecute (sniff : List Nat → String) (net : Network) (url : String) :
    Except PyExn ProbeResult :=
  match net.headResult with
  | .error e => .error (pyExnOfNet e)
  | .ok resHead =>
    if responseIsError resHead then
      .ok { url := url, status_code := resHead.status_code,
            checksum_metadata := ChecksumMetadata.empty,
            probe_error := some ("HTTP Error: " ++ resHead.reason_phrase) }
    else
      let cm := checksumFromHeaders resHead.headers
      let rangeSupported := hget resHead.headers "Accept-Ranges" == some "bytes"
      match proberTryBody sniff net.getResult resHead url cm rangeSupported with
      | .ok p => .ok p
      | .error e =>
        .ok { url := url, status_code := 0, mime_type := "error",
              checksum_metadata := cm,
              probe_error := some (e.className ++ ": " ++ e.message) }

/-! ## Paths and filesystem
(`src/pipeline/etl/src/common/path_manager.py`)

A `pathlib.Path` is embedded as parent-directory components plus stem and
suffix (`name = stem ++ suffix`); `with_suffix` replaces the suffix and keeps
the directory.  A filesystem is a map from paths to file contents, here the
content of a written JSON file as a string. -/

structure PyPath where
  dir : List String
  stem : String
  suffix : String
  deriving Repr, DecidableEq

/-- `Path.with_suffix(s)`. -/
def withSuffix (p : PyPath) (s : String) : PyPath := { p with suffix := s }

abbrev FS := PyPath → Option String

/-- Point update of a filesystem. -/
def fsSet (fs : FS) (p : PyPath) (c : Option String) : FS :=
  fun q => if q = p then c else fs q

/-- `src.replace(dst)`: one atomic step moving the file at `src` over `dst`. -/
def fsRename (fs : FS) (src dst : PyPath) : FS :=
  fsSet (fsSet fs dst (fs src)) src none

/-- `PathManager.write_json(path, data, atomic=True)` as the sequence of
filesystem states an observer (or a crash) can see: first the temporary file
`path.with_suffix(path.suffix + ".tmp")` is created and filled incrementally
(every prefix of the serialized content is an observable intermediate state),
then `tmp_path.replace(path)` installs the content over the target in one
atomic rename.  The last list entry is the state after the write completes. -/
def writeJsonAtomicTrace (fs : FS) (path : PyPath) (content : String) : List FS :=
  let tmp := withSuffix path (path.suffix ++ ".tmp")
  (List.range (content.length + 1)).map (fun i => fsSet fs tmp (some (content.take i)))
    ++ [fsRename (fsSet fs tmp (some content)) tmp path]

/-! ## Download event
(`src/pipeline/etl/src/extractor/download/event.py`, `DownloadEvent`) -/

/-- A hex digit in either case (`[a-fA-F0-9]`). -/
def isHexChar (c : Char) : Bool :=
  c.isDigit || (97 ≤ c.toNat && c.toNat ≤ 102) || (65 ≤ c.toNat && c.toNat ≤ 70)

/-- The pydantic pattern `^[a-fA-F0-9]{64}$` of `DownloadEvent.sha256` and
`Record.checksum`. -/
def matchesSha256Pattern (s : String) : Bool :=
  s.length == 64 && s.toList.all isHexChar

/-- Modelled from the spec words for the digest format: a LOWERCASE hex
SHA-256 string of exactly 64 hex characters (`[a-f0-9]{64}`).  Stated only to
compare the specified format with the pattern the code enforces. -/
def specLowercaseSha256 (s : String) : Bool :=
  s.length == 64 && s.toList.all (fun c => c.isDigit || (97 ≤ c.toNat && c.toNat ≤ 102))

structure DownloadEvent where
  file_path : PyPath
  file_size_bytes : Int
  sha256 : String
  ts_download_started : Option Nat
  ts_download_completed : Option Nat
  download_regime : String
  deriving Repr, DecidableEq

/-- Pydantic construction of a `DownloadEvent`: `file_path : FilePath` must
name an existing file, `file_size_bytes` must be strictly positive
(`Field(gt=0)`), and `sha256` must match `^[a-fA-F0-9]{64}$`; any violation
raises a validation error. -/
def mkDownloadEvent (fs : FS) (filePath : PyPath) (fileSizeBytes : Int) (sha : String)
    (tsStarted tsCompleted : Option Nat) (regime : String) : Except PyExn DownloadEvent :=
  if (fs filePath).isSome && decide (0 < fileSizeBytes) && matchesSha256Pattern sha then
    .ok ⟨filePath, fileSizeBytes, sha, tsStarted, tsCompleted, regime⟩
  else
    .error (.validationError "validation error for DownloadEvent")

/-! ## Download strategy context
(`src/pipeline/etl/src/extractor/download/context.py`, `DownloadContext`) -/

/-- Observable download work: network fetches and file writes. -/
inductive DlEffect where
  | httpGet (url : String)
  | fileWrite (chunk : List Nat)
  deriving Repr, DecidableEq

/-- `DownloadContext._strategy_map`: the static MIME-type registry, mapping
each registered MIME type to the name of its regime class. -/
def strategyMap : List (String × String) := [("application/gzip", "GzipRegime")]

/-- `DownloadContext.execute`, paired with the download effects it performs.
When the probed MIME type has no registry entry the lookup returns `None` and
the defensive check raises `ValueError` before any path, network or file work.
When a strategy is found, the very next filesystem step calls
`self.path_manager.create_timestamped_dir()`, a method the imported
`PathManager` class does not define, so that branch raises `AttributeError`
before any bytes are transferred. -/
def contextExecute (probe : ProbeResult) : Except PyExn DownloadEvent × List DlEffect :=
  match hget strategyMap probe.mime_type with
  | none =>
    (.error (.valueError ("No strategy found for MIME type: " ++ probe.mime_type)), [])
  | some _ =>
    (.error (.attributeError (sq ++ "PathManager" ++ sq ++ " object has no attribute "
        ++ sq ++ "create_timestamped_dir" ++ sq)), [])

/-! ## Manifest data model
(`src/pipeline/etl/src/manifest/metadata.py`, `record.py`, `model.py`) -/

/-- `Metadata` (manifest metadata).  Timestamps are abstract clock values. -/
structure ManifestMetadata where
  process : String
  version : String
  total_records : Nat
  ts_created : Nat
  ts_updated : Nat
  deriving Repr, DecidableEq

/-- `Metadata.touch()`: refresh `ts_updated` to the current time. -/
def metadataTouch (md : ManifestMetadata) (now : Nat) : ManifestMetadata :=
  { md with ts_updated := now }

/-- The pydantic pattern `^\d+\.\d+$` of `Metadata.version`. -/
def matchesVersionPattern (s : String) : Bool :=
  match s.splitOn "." with
  | [a, b] => !a.isEmpty && !b.isEmpty && a.toList.all Char.isDigit && b.toList.all Char.isDigit
  | _ => false

/-- `Record` (one manifest entry). -/
structure ManifestRecord where
  source_id : String
  dataset : String
  checksum : String
  file_path : PyPath
  file_size : Int
  file_version : String
  etag : Option String
  ts_downloaded : Option Nat
  deriving Repr, DecidableEq

/-- Pydantic field validation of a `Record`: `checksum` must match
`^[a-fA-F0-9]{64}$` and `file_size` must be strictly positive. -/
def validateManifestRecord (r : ManifestRecord) : Except PyExn ManifestRecord :=
  if matchesSha256Pattern r.checksum && decide (0 < r.file_size) then .ok r
  else .error (.validationError "validation error for Record")

/-- `Manifest`: process name, metadata, and the `records` dict mapping SHA-256
strings to records.  The Python `dict` is embedded as an association list with
insert-or-overwrite semantics and (as in every `dict`) no duplicate keys in
values produced by the code. -/
structure Manifest where
  process : String
  metadata : ManifestMetadata
  records : List (String × ManifestRecord)
  deriving Repr, DecidableEq

/-- `d[k] = v` on a Python dict: overwrite in place if the key is present,
append otherwise. -/
def dictInsert (k : String) (v : ManifestRecord) :
    List (String × ManifestRecord) → List (String × ManifestRecord)
  | [] => [(k, v)]
  | (k0, v0) :: t => if k0 == k then (k, v) :: t else (k0, v0) :: dictInsert k v t

/-- The key list of a dict (in insertion order). -/
def dictKeys (d : List (String × ManifestRecord)) : List String := d.map Prod.fst

/-- The invariant checked by `Manifest.validate_record_keys`: every stored key
equals its record's `checksum`. -/
def recordKeysOk (m : Manifest) : Bool :=
  m.records.all (fun p => p.1 == p.2.checksum)

/-- First `(key, record)` pair whose key disagrees with the record checksum,
in iteration order. -/
def firstKeyMismatch (records : List (String × ManifestRecord)) :
    Option (String × ManifestRecord) :=
  records.find? (fun p => p.1 != p.2.checksum)

/-- `Manifest.validate_record_keys` (a pydantic `model_validator` run when a
manifest is validated): raise `ValueError` on the first key/checksum mismatch,
otherwise return the manifest unchanged. -/
def validateRecordKeys (m : Manifest) : Except PyExn Manifest :=
  match firstKeyMismatch m.records with
  | some p => .error (.valueError ("Manifest key mismatch: Key " ++ sq ++ p.1 ++ sq
      ++ " does not match Record checksum " ++ sq ++ p.2.checksum ++ sq))
  | none => .ok m

/-- Full pydantic validation of a `Manifest` parsed from disk: nested field
validation of the metadata version pattern and of every record, then the
`validate_record_keys` model validator. -/
def validateManifest (m : Manifest) : Except PyExn Manifest :=
  if !matchesVersionPattern m.metadata.version then
    .error (.validationError "validation error for Metadata")
  else if !(m.records.all (fun p => matchesSha256Pattern p.2.checksum && decide (0 < p.2.file_size))) then
    .error (.validationError "validation error for Record")
  else
    validateRecordKeys m

/-! ## Manifest manager
(`src/pipeline/etl/src/manifest/manager.py`, `ManifestManager`;
`src/pipeline/etl/src/common/path_manager.py`, path generation and model I/O;
`src/pipeline/etl/src/extractor/sources/model.py`, `ETLSource.state`) -/

/-- The fields of `ETLSource` read by `ManifestManager.add_record`. -/
structure SourceState where
  last_etag : Option String
  last_sha256 : Option String
  last_run : Option String
  deriving Repr, DecidableEq

structure ETLSource where
  source_id : String
  dataset : String
  state : SourceState
  deriving Repr, DecidableEq

/-- `re.sub(r'[^\w-]', '', version).replace('.', '_')` from
`PathManager.generate_manifest_path`: drop every character that is neither a
word character nor a hyphen, then replace dots by underscores (dots are
already gone after the first step, so the replacement never fires). -/
def sanitizeVersion (v : String) : String :=
  String.mk (((v.toList.filter (fun c => c.isAlphanum || c == Char.ofNat 95 || c == Char.ofNat 45)).map
    (fun c => if c == Char.ofNat 46 then Char.ofNat 95 else c)))

/-- `PathManager.generate_manifest_path(process, version)`: the file
`manifest_<process.lower()>_v<safe_version>.json` under the manifests
directory.  The method performs no `mkdir` and no other filesystem access. -/
def generateManifestPath (manifestsDir : List String) (process version : String) : PyPath :=
  { dir := manifestsDir,
    stem := "manifest_" ++ process.toLower ++ "_v" ++ sanitizeVersion version,
    suffix := ".json" }

/-- The JSON text produced by `model_dump(mode="json")` + `json.dump` for a
manifest.  Every stated property about saving is independent of the exact
serialized text, which is therefore rendered in a concrete simplified form. -/
def serializeRecordJson (r : ManifestRecord) : String :=
  "\x7b\"checksum\": \"" ++ r.checksum ++ "\", \"file_size\": " ++ toString r.file_size ++ "\x7d"

def serializeManifestJson (m : Manifest) : String :=
  "\x7b\"process\": \"" ++ m.process ++ "\", \"total_records\": "
    ++ toString m.metadata.total_records ++ ", \"records\": \x7b"
    ++ String.intercalate ", " (m.records.map (fun p => "\"" ++ p.1 ++ "\": " ++ serializeRecordJson p.2))
    ++ "\x7d\x7d"

/-- The in-memory effect of `ManifestManager.save(manifest)` before the write:
`metadata.touch()` then `metadata.total_records = len(records)`. -/
def managerSaveState (m : Manifest) (now : Nat) : Manifest :=
  { m with metadata := { metadataTouch m.metadata now with total_records := m.records.length } }

/-- `ManifestManager.save(manifest)`: update the metadata, resolve the target
path from the manifest's own process and version, and commit via
`PathManager.write_pydantic_model(..., atomic=True)`, which serializes and
delegates to `write_json` with `atomic=True`.  Returns the updated manifest
and the observable filesystem trace of the atomic write. -/
def managerSave (fs : FS) (manifestsDir : List String) (m : Manifest) (now : Nat) :
    Manifest × List FS :=
  let m1 := managerSaveState m now
  let target := generateManifestPath manifestsDir m1.process m1.metadata.version
  (m1, writeJsonAtomicTrace fs target (serializeManifestJson m1))

/-- The `Record` built by `ManifestManager.add_record` from a source and a
download event. -/
def recordOfEvent (source : ETLSource) (event : DownloadEvent) : ManifestRecord :=
  { source_id := source.source_id, dataset := source.dataset, checksum := event.sha256,
    file_path := event.file_path, file_size := event.file_size_bytes,
    file_version := "1.0", etag := source.state.last_etag,
    ts_downloaded := event.ts_download_completed }

/-- `ManifestManager.add_record(manifest, source, event)`: build the record
(pydantic-validated on construction), insert it into `manifest.records` keyed
by its own checksum, set `total_records = len(records)`, `touch()` at time
`tAdd`, then run `save` (which touches again at time `tSave` and re-derives
`total_records`).  Returns the manifest state after the embedded `save`. -/
def managerAddRecord (m : Manifest) (source : ETLSource) (event : DownloadEvent)
    (tAdd tSave : Nat) : Except PyExn Manifest :=
  match validateManifestRecord (recordOfEvent source event) with
  | .error e => .error e
  | .ok record =>
    let records := dictInsert record.checksum record m.records
    .ok (managerSaveState
      { m with records := records,
               metadata := { metadataTouch m.metadata tAdd with total_records := records.length } }
      tSave)

/-- `ManifestManager._generate_new_manifest`: a fresh in-memory manifest with
an empty record dict and zero total records; no I/O. -/
def generateNewManifest (process version : String) (now : Nat) : Manifest :=
  { process := process,
    metadata := { process := process, version := version, total_records := 0,
                  ts_created := now, ts_updated := now },
    records := [] }

/-- A filesystem as seen through JSON decoding into manifest data: file
contents are modelled after the `json.load` step, as the raw manifest value
the file holds. -/
abbrev MFS := PyPath → Option Manifest

/-- `PathManager.read_pydantic_model(path, model_class=Manifest)`: `None` when
the file does not exist (the `FileNotFoundError` of `read_json` is caught and
maps to `None`), the validated manifest when validation passes, and
`ValueError` when pydantic validation fails.  Performs no filesystem write. -/
def readPydanticManifest (mfs : MFS) (path : PyPath) : Except PyExn (Option Manifest) :=
  match mfs path with
  | none => .ok none
  | some raw =>
    match validateManifest raw with
    | .ok m => .ok (some m)
    | .error e => .error (.valueError ("Pydantic validation failed: " ++ e.message))

/-- The parameters `PathManager.read_pydantic_model` accepts (besides `self`). -/
def readPydanticModelParams : List String := ["path", "model_class"]

/-- The keyword arguments `ManifestManager.load` passes to
`read_pydantic_model` (manager.py lines 72-76). -/
def managerLoadCallKwargs : List String := ["path", "model_class", "strict"]

/-- `ManifestManager.load(process_name, version)`.  Python checks the call
signature before entering the callee: every keyword argument passed must be a
parameter of `read_pydantic_model`, otherwise `TypeError` is raised at the
call site and the body of `read_pydantic_model` (and the fresh-manifest
fallback that follows it) never runs. -/
def managerLoad (mfs : MFS) (manifestsDir : List String) (process version : String)
    (now : Nat) : Except PyExn Manifest :=
  let path := generateManifestPath manifestsDir process version
  if managerLoadCallKwargs.all (fun k => readPydanticModelParams.contains k) then
    match readPydanticManifest mfs path with
    | .error e => .error e
    | .ok (some m) => .ok m
    | .ok none => .ok (generateNewManifest process version now)
  else
    .error (.typeError ("read_pydantic_model() got an unexpected keyword argument "
      ++ sq ++ "strict" ++ sq))

/-! ## Concrete inputs used by witnesses and counterexamples -/

/-- A MIME sniffer that recognises everything as gzip (any concrete sniffer
works for the stated properties). -/
def sniffGzip : List Nat → String := fun _ => "application/gzip"

/-- An unreachable host: both requests raise `httpx.ConnectError`. -/
def netUnreachable : Network :=
  { headResult := .error ⟨"ConnectError", "All connection attempts failed"⟩,
    getResult := .error ⟨"ConnectError", "All connection attempts failed"⟩ }

/-- A reachable host whose HEAD succeeds but whose sample GET raises a
timeout. -/
def netGetTimeout : Network :=
  { headResult := .ok
      { status_code := 200, reason_phrase := "OK",
        headers := [("Accept-Ranges", "bytes"), ("Last-Modified", "yesterday")],
        content := [] },
    getResult := .error ⟨"ReadTimeout", "timed out"⟩ }

/-- A reachable host whose HEAD succeeds and whose sample GET completes with
HTTP status 416 (outside 200/206). -/
def netGet416 : Network :=
  { headResult := .ok { status_code := 200, reason_phrase := "OK", headers := [], content := [] },
    getResult := .ok
      { status_code := 416, reason_phrase := "Range Not Satisfiable",
        headers := [("Content-Length", "10")], content := [] } }

/-- A probe of an HTML page: a MIME type with no registry entry. -/
def probeHtml : ProbeResult :=
  { url := "http://example.com/page", status_code := 200, mime_type := "text/html" }

def pathC9 : PyPath := { dir := ["data", "raw"], stem := "x", suffix := ".gz" }

/-- A one-file filesystem holding `pathC9`. -/
def fsC9 : FS := fun q => if q = pathC9 then some "payload" else none

/-- 64 uppercase hex characters: accepted by `^[a-fA-F0-9]{64}$` but not
lowercase. -/
def upperDigest : String := String.mk (List.replicate 64 (Char.ofNat 65))

/-- 64 lowercase hex characters (the digest of the empty byte string). -/
def emptyDigest : String := "e3b0c44298fc1c149afbf4c8996fb92427ae41e4649b934ca495991b7852b855"

def sourceW : ETLSource :=
  { source_id := "spansh", dataset := "galaxy", state := ⟨some "etag-1", none, none⟩ }

def eventW : DownloadEvent :=
  { file_path := pathC9, file_size_bytes := 7, sha256 := emptyDigest,
    ts_download_started := some 10, ts_download_completed := some 11,
    download_regime := "GzipRegime" }

def eventW2 : DownloadEvent :=
  { file_path := pathC9, file_size_bytes := 9, sha256 := emptyDigest,
    ts_download_started := some 20, ts_download_completed := some 21,
    download_regime := "GzipRegime" }

def manifestW : Manifest :=
  { process := "downloads",
    metadata := { process := "downloads", version := "1.0", total_records := 0,
                  ts_created := 0, ts_updated := 0 },
    records := [] }

/-- A manifest value whose stored key disagrees with its record checksum. -/
def manifestBad : Manifest :=
  { process := "downloads",
    metadata := { process := "downloads", version := "1.0", total_records := 1,
                  ts_created := 0, ts_updated := 0 },
    records := [(upperDigest,
      { source_id := "spansh", dataset := "galaxy",
        checksum := emptyDigest, file_path := pathC9, file_size := 7,
        file_version := "1.0", etag := none, ts_downloaded := none })] }

/-- The manifest produced by `add_record` on `manifestW` with `eventW`
(`touch` clock values 1 and 2). -/
def manifestW1 : Manifest :=
  { process := "downloads",
    metadata := { process := "downloads", version := "1.0", total_records := 1,
                  ts_created := 0, ts_updated := 2 },
    records := [(emptyDigest, recordOfEvent sourceW eventW)] }

/-- The manifest produced by a second `add_record` on `manifestW1` with
`eventW2` (same digest, `touch` clock values 3 and 4). -/
def manifestW2 : Manifest :=
  { process := "downloads",
    metadata := { process := "downloads", version := "1.0", total_records := 1,
                  ts_created := 0, ts_updated := 4 },
    records := [(emptyDigest, recordOfEvent sourceW eventW2)] }

/-- A filesystem with no manifest files at all. -/
def mfsEmpty : MFS := fun _ => none

/-! ## Theorems -/

theorem gzipStep_preserves_sync (s : GzipLoopState) (c : List Nat)
    (h : s.hashFed = s.fileBytes) : (gzipStep s c).hashFed = (gzipStep s c).fileBytes := by
  simp [gzipStep, h]

theorem gzipFold_sync (chunks : List (List Nat)) :
    ∀ s : GzipLoopState, s.hashFed = s.fileBytes →
      (chunks.foldl gzipStep s).hashFed = (chunks.foldl gzipStep s).fileBytes := by
  induction chunks with
  | nil => intro s h; simpa using h
  | cons c cs ih =>
    intro s h
    simpa [List.foldl_cons] using ih (gzipStep s c) (gzipStep_preserves_sync s c h)

/-- C1.  For every completed (exception-free) run of `GzipRegime.download`, the
returned value is the lowercase hex SHA-256 digest of exactly the bytes written
to the destination file, and after processing any number `n` of chunks the
bytes fed into the digest accumulator are exactly the bytes written so far. -/
theorem C1_gzip_digest_describes_file_bytes (chunks : List (List Nat)) :
    (gzipRegimeDownload chunks).1 = sha256Hex (gzipRegimeDownload chunks).2 ∧
    ∀ n : Nat,
      ((chunks.take n).foldl gzipStep gzipInit).hashFed =
        ((chunks.take n).foldl gzipStep gzipInit).fileBytes := by
  constructor
  · have h := gzipFold_sync chunks gzipInit rfl
    simp only [gzipRegimeDownload, gzipDownloadState]
    rw [h]
  · intro n
    exact gzipFold_sync (chunks.take n) gzipInit rfl

/-- Claim C2, counterexample.  The claim says probing an unreachable host
returns a `ProbeResult` with `status_code == 0` instead of propagating the
network exception; in the code the HEAD request sits outside the `try` block,
so the `ConnectError` of an unreachable host propagates out of `execute`. -/
theorem C2_counterexample_unreachable_host_raises :
    proberExecute sniffGzip netUnreachable "http://unreachable.example/data.gz"
      = .error (.httpxError "ConnectError" "All connection attempts failed") := rfl

/-- Claim C2 (amended).  When the HEAD request succeeds with a non-error
status and the ranged sample GET raises a transport exception, `execute` does
not raise: it returns a `ProbeResult` with `status_code == 0`,
`mime_type == "error"` and a non-empty `probe_error`.  (As stated the claim is
false: a transport failure during the HEAD request itself, e.g. an unreachable
host, propagates as an exception.) -/
theorem C2_sample_fetch_failure_isolated (sniff : List Nat → String) (net : Network)
    (url : String) (resHead : HttpResponse) (e : NetExn)
    (hhead : net.headResult = .ok resHead)
    (hok : responseIsError resHead = false)
    (hsample : net.getResult = .error e) :
    proberExecute sniff net url
      = .ok { url := url, status_code := 0, mime_type := "error",
              checksum_metadata := checksumFromHeaders resHead.headers,
              probe_error := some (e.name ++ ": " ++ e.msg) } ∧
    (e.name ++ ": " ++ e.msg) ≠ "" := by
  constructor
  · simp [proberExecute, hhead, hok, proberTryBody, hsample, pyExnOfNet,
      PyExn.className, PyExn.message]
  · intro hcontra
    have hlen := congrArg String.length hcontra
    have h2 : (": ").length = 2 := rfl
    simp [String.length_append] at hlen
    omega

theorem C2_sample_fetch_failure_isolated_witness :
    proberExecute sniffGzip netGetTimeout "http://example.com/data.gz"
      = .ok { url := "http://example.com/data.gz", status_code := 0, mime_type := "error",
              checksum_metadata := checksumFromHeaders
                [("Accept-Ranges", "bytes"), ("Last-Modified", "yesterday")],
              probe_error := some ("ReadTimeout" ++ ": " ++ "timed out") } ∧
    ("ReadTimeout" ++ ": " ++ "timed out") ≠ "" :=
  C2_sample_fetch_failure_isolated sniffGzip netGetTimeout "http://example.com/data.gz"
    { status_code := 200, reason_phrase := "OK",
      headers := [("Accept-Ranges", "bytes"), ("Last-Modified", "yesterday")],
      content := [] }
    ⟨"ReadTimeout", "timed out"⟩ rfl (by decide) rfl

/-- Claim C5, counterexample.  On a probe whose MIME type has no registry
entry, `execute` raises the builtin `ValueError`, not a dedicated typed
`NoStrategyError` (no such exception class exists in the code base). -/
theorem C5_counterexample_generic_valueerror :
    (contextExecute probeHtml).1
      = .error (.valueError "No strategy found for MIME type: text/html") ∧
    PyExn.className (.valueError "No strategy found for MIME type: text/html")
      = "ValueError" ∧
    "ValueError" ≠ "NoStrategyError" := by
  refine ⟨rfl, rfl, by decide⟩

/-- Claim C5 (amended).  For every probe whose MIME type has no entry in the
strategy registry, `execute` fails by raising a generic `ValueError` whose
message names the unmapped MIME type — no fallback or default regime is
attempted and no download work is performed. -/
theorem C5_unmapped_mime_fails_before_download (probe : ProbeResult)
    (h : hget strategyMap probe.mime_type = none) :
    (contextExecute probe).1
      = .error (.valueError ("No strategy found for MIME type: " ++ probe.mime_type)) ∧
    (contextExecute probe).2 = [] ∧
    PyExn.className (.valueError ("No strategy found for MIME type: " ++ probe.mime_type))
      = "ValueError" := by
  refine ⟨?_, ?_, rfl⟩ <;> simp [contextExecute, h]

theorem C5_unmapped_mime_fails_before_download_witness :
    (contextExecute probeHtml).1
      = .error (.valueError ("No strategy found for MIME type: " ++ probeHtml.mime_type)) ∧
    (contextExecute probeHtml).2 = [] ∧
    PyExn.className (.valueError ("No strategy found for MIME type: " ++ probeHtml.mime_type))
      = "ValueError" :=
  C5_unmapped_mime_fails_before_download probeHtml (by decide)

/-- Claim C10.  If the HEAD succeeds (non-error status) and the ranged sample
GET completes without raising but with a status other than 200 and 206, the
returned probe has the sentinel `mime_type = "unknown"`, `probe_error = None`
and the HEAD status code — indistinguishable from a successful fetch of
unsniffable content — and dispatching such a probe fails with the no-strategy
`ValueError`, not a probe error. -/
theorem C10_failed_sample_masquerades_as_unknown (sniff : List Nat → String) (net : Network)
    (url : String) (resHead resGet : HttpResponse) (n : Nat)
    (hhead : net.headResult = .ok resHead)
    (hok : responseIsError resHead = false)
    (hsample : net.getResult = .ok resGet)
    (h200 : resGet.status_code ≠ 200) (h206 : resGet.status_code ≠ 206)
    (hcl : contentLengthValue resGet.headers = .ok n) :
    proberExecute sniff net url
      = .ok { url := url, status_code := resHead.status_code, content_length := some n,
              last_modified := hget resHead.headers "Last-Modified",
              mime_type := "unknown",
              is_range_supported := (hget resHead.headers "Accept-Ranges" == some "bytes"),
              checksum_metadata := checksumFromHeaders resHead.headers,
              probe_error := none } ∧
    hget strategyMap "unknown" = none ∧
    ∀ p : ProbeResult, p.mime_type = "unknown" →
      (contextExecute p).1 = .error (.valueError "No strategy found for MIME type: unknown") := by
  refine ⟨?_, by decide, ?_⟩
  · simp [proberExecute, hhead, hok, proberTryBody, hsample, hcl, h200, h206]
  · intro p hp
    simp only [contextExecute, hp]
    rfl

theorem C10_failed_sample_masquerades_as_unknown_witness :
    proberExecute sniffGzip netGet416 "http://example.com/data.gz"
      = .ok { url := "http://example.com/data.gz", status_code := 200, content_length := some 10,
              last_modified := hget ([] : List (String × String)) "Last-Modified",
              mime_type := "unknown",
              is_range_supported := (hget ([] : List (String × String)) "Accept-Ranges" == some "bytes"),
              checksum_metadata := checksumFromHeaders [],
              probe_error := none } ∧
    hget strategyMap "unknown" = none ∧
    ∀ p : ProbeResult, p.mime_type = "unknown" →
      (contextExecute p).1 = .error (.valueError "No strategy found for MIME type: unknown") :=
  C10_failed_sample_masquerades_as_unknown sniffGzip netGet416 "http://example.com/data.gz"
    { status_code := 200, reason_phrase := "OK", headers := [], content := [] }
    { status_code := 416, reason_phrase := "Range Not Satisfiable",
      headers := [("Content-Length", "10")], content := [] }
    10 rfl (by decide) rfl (by decide) (by decide) rfl

theorem fsSet_ne (fs : FS) (p q : PyPath) (c : Option String) (h : q ≠ p) :
    fsSet fs p c q = fs q := if_neg h

theorem append_tmp_ne (s : String) : s ++ ".tmp" ≠ s := by
  intro h
  have h1 := congrArg String.length h
  rw [String.length_append] at h1
  have h4 : (".tmp").length = 4 := rfl
  omega

theorem withSuffix_tmp_ne (p : PyPath) : withSuffix p (p.suffix ++ ".tmp") ≠ p := by
  intro h
  exact append_tmp_ne p.suffix (congrArg PyPath.suffix h)

/-- During and after an atomic `write_json`, the target path holds either its
previous content or the complete new content, and the final state holds the
new content. -/
theorem writeJsonAtomicTrace_target_ok (fs : FS) (path : PyPath) (content : String) :
    (((writeJsonAtomicTrace fs path content).map (fun s => s path)).all
      (fun v => v == fs path || v == some content)) = true ∧
    ((writeJsonAtomicTrace fs path content).getLast?).map (fun s => s path)
      = some (some content) := by
  have hne : path ≠ withSuffix path (path.suffix ++ ".tmp") := (withSuffix_tmp_ne path).symm
  constructor
  · rw [List.all_eq_true]
    intro v hv
    rw [List.mem_map] at hv
    obtain ⟨s, hs, rfl⟩ := hv
    rw [writeJsonAtomicTrace, List.mem_append] at hs
    rcases hs with hs | hs
    · rw [List.mem_map] at hs
      obtain ⟨i, _, rfl⟩ := hs
      rw [fsSet_ne _ _ _ _ hne]
      simp
    · rw [List.mem_singleton] at hs
      subst hs
      have : fsRename (fsSet fs (withSuffix path (path.suffix ++ ".tmp")) (some content))
          (withSuffix path (path.suffix ++ ".tmp")) path path = some content := by
        simp [fsRename, fsSet, hne]
      rw [this]
      simp
  · rw [writeJsonAtomicTrace, List.getLast?_concat]
    have : fsRename (fsSet fs (withSuffix path (path.suffix ++ ".tmp")) (some content))
        (withSuffix path (path.suffix ++ ".tmp")) path path = some content := by
      simp [fsRename, fsSet, hne]
    simp [this]

/-- Claim C4.  `save(manifest)` commits by writing the serialized manifest to
a temporary file in the same directory as the target and then renaming it over
the final path in one step: at every observable point of the save the target
path holds either the previous content or the new complete content, never a
truncated file, and after the save it holds the new content. -/
theorem C4_manifest_save_atomic (fs : FS) (manifestsDir : List String) (m : Manifest)
    (now : Nat) :
    (withSuffix (generateManifestPath manifestsDir m.process m.metadata.version)
        ((generateManifestPath manifestsDir m.process m.metadata.version).suffix ++ ".tmp")).dir
      = (generateManifestPath manifestsDir m.process m.metadata.version).dir ∧
    (((managerSave fs manifestsDir m now).2.map
        (fun s => s (generateManifestPath manifestsDir m.process m.metadata.version))).all
      (fun v => v == fs (generateManifestPath manifestsDir m.process m.metadata.version)
        || v == some (serializeManifestJson (managerSaveState m now)))) = true ∧
    ((managerSave fs manifestsDir m now).2.getLast?).map
        (fun s => s (generateManifestPath manifestsDir m.process m.metadata.version))
      = some (some (serializeManifestJson (managerSaveState m now))) := by
  refine ⟨rfl, ?_, ?_⟩
  · exact (writeJsonAtomicTrace_target_ok fs
      (generateManifestPath manifestsDir m.process m.metadata.version)
      (serializeManifestJson (managerSaveState m now))).1
  · exact (writeJsonAtomicTrace_target_ok fs
      (generateManifestPath manifestsDir m.process m.metadata.version)
      (serializeManifestJson (managerSaveState m now))).2

theorem dictInsert_collapse (k : String) (v1 v2 : ManifestRecord)
    (d : List (String × ManifestRecord)) :
    dictInsert k v2 (dictInsert k v1 d) = dictInsert k v2 d := by
  induction d with
  | nil => simp [dictInsert]
  | cons p t ih =>
    obtain ⟨k0, v0⟩ := p
    by_cases h : k0 = k
    · subst h; simp [dictInsert]
    · simp [dictInsert, h, ih]

theorem dictKeys_insert_indep (k : String) (v1 v2 : ManifestRecord)
    (d : List (String × ManifestRecord)) :
    dictKeys (dictInsert k v1 d) = dictKeys (dictInsert k v2 d) := by
  induction d with
  | nil => simp [dictInsert, dictKeys]
  | cons p t ih =>
    obtain ⟨k0, v0⟩ := p
    by_cases h : k0 = k
    · subst h; simp [dictInsert, dictKeys]
    · simp [dictInsert, dictKeys, h]
      simpa [dictKeys] using ih

theorem hget_dictInsert_self (k : String) (v : ManifestRecord)
    (d : List (String × ManifestRecord)) :
    hget (dictInsert k v d) k = some v := by
  induction d with
  | nil => simp [dictInsert, hget]
  | cons p t ih =>
    obtain ⟨k0, v0⟩ := p
    by_cases h : k0 = k
    · subst h; simp [dictInsert, hget]
    · simpa [dictInsert, hget, h] using ih

theorem dictKeys_cons (p : String × ManifestRecord) (t : List (String × ManifestRecord)) :
    dictKeys (p :: t) = p.1 :: dictKeys t := rfl

theorem countP_key_zero_of_not_mem (k : String) (d : List (String × ManifestRecord))
    (h : k ∉ dictKeys d) : d.countP (fun p => p.1 == k) = 0 := by
  induction d with
  | nil => simp
  | cons p t ih =>
    obtain ⟨k0, v0⟩ := p
    rw [dictKeys_cons, List.mem_cons] at h
    push_neg at h
    rw [List.countP_cons]
    have hbeq : (k0 == k) = false := beq_eq_false_iff_ne.mpr (Ne.symm h.1)
    simp [ih h.2, hbeq]

theorem countP_dictInsert_one (k : String) (v : ManifestRecord)
    (d : List (String × ManifestRecord)) (hnd : (dictKeys d).Nodup) :
    (dictInsert k v d).countP (fun p => p.1 == k) = 1 := by
  induction d with
  | nil => simp [dictInsert]
  | cons p t ih =>
    obtain ⟨k0, v0⟩ := p
    rw [dictKeys_cons, List.nodup_cons] at hnd
    by_cases h : k0 = k
    · subst h
      simp only [dictInsert, beq_self_eq_true, if_true, List.countP_cons]
      have hz := countP_key_zero_of_not_mem k0 t hnd.1
      simp [hz]
    · have hbeq : (k0 == k) = false := beq_eq_false_iff_ne.mpr h
      simp only [dictInsert, hbeq, Bool.false_eq_true, if_false, List.countP_cons]
      simp [ih hnd.2, hbeq]

theorem recordsAll_dictInsert (pred : String × ManifestRecord → Bool) (k : String)
    (v : ManifestRecord) (d : List (String × ManifestRecord))
    (hall : d.all pred = true) (hv : pred (k, v) = true) :
    (dictInsert k v d).all pred = true := by
  induction d with
  | nil => simpa [dictInsert] using hv
  | cons p t ih =>
    obtain ⟨k0, v0⟩ := p
    rw [List.all_cons, Bool.and_eq_true] at hall
    by_cases h : k0 = k
    · subst h
      simp only [dictInsert, beq_self_eq_true, if_true, List.all_cons, Bool.and_eq_true]
      exact ⟨hv, hall.2⟩
    · have hbeq : (k0 == k) = false := beq_eq_false_iff_ne.mpr h
      simp only [dictInsert, hbeq, Bool.false_eq_true, if_false, List.all_cons,
        Bool.and_eq_true]
      exact ⟨hall.1, ih hall.2⟩

/-- Inversion of a successful `add_record`: the resulting manifest inserts the
event's record under its own digest, and its metadata was re-derived by the
embedded `save`. -/
theorem managerAddRecord_ok_inversion (m : Manifest) (src : ETLSource) (ev : DownloadEvent)
    (tAdd tSave : Nat) (m' : Manifest)
    (h : managerAddRecord m src ev tAdd tSave = .ok m') :
    m'.records = dictInsert ev.sha256 (recordOfEvent src ev) m.records ∧
    m'.metadata.total_records = m'.records.length ∧
    m'.metadata.ts_updated = tSave ∧
    m'.process = m.process := by
  unfold managerAddRecord at h
  cases hval : validateManifestRecord (recordOfEvent src ev) with
  | error e => rw [hval] at h; cases h
  | ok record =>
    have hrec : record = recordOfEvent src ev := by
      unfold validateManifestRecord at hval
      split at hval
      · cases hval; rfl
      · cases hval
    rw [hval] at h
    cases h
    subst hrec
    exact ⟨rfl, rfl, rfl, rfl⟩

/-- Claim C3.  Every `(key, record)` pair of a manifest satisfies
`key == record.checksum`: the invariant is preserved by every successful
`add_record` (records are inserted under their own checksum), and validation
of a loaded manifest either returns it unchanged with the invariant holding or
rejects it with an error — never loads or silently repairs a violating one. -/
theorem C3_manifest_key_equals_checksum (m : Manifest) (src : ETLSource) (ev : DownloadEvent)
    (tAdd tSave : Nat) (m' : Manifest)
    (hinv : recordKeysOk m = true)
    (hadd : managerAddRecord m src ev tAdd tSave = .ok m') :
    recordKeysOk m' = true ∧
    (∀ mf mv : Manifest, validateManifest mf = .ok mv → mv = mf ∧ recordKeysOk mf = true) := by
  constructor
  · have hrecs := (managerAddRecord_ok_inversion m src ev tAdd tSave m' hadd).1
    unfold recordKeysOk
    rw [hrecs]
    refine recordsAll_dictInsert _ _ _ _ hinv ?_
    simp [recordOfEvent]
  · intro mf mv hv
    unfold validateManifest at hv
    split at hv
    · cases hv
    · split at hv
      · cases hv
      · unfold validateRecordKeys at hv
        cases hfm : firstKeyMismatch mf.records with
        | some p => rw [hfm] at hv; cases hv
        | none =>
          rw [hfm] at hv
          cases hv
          refine ⟨rfl, ?_⟩
          unfold recordKeysOk
          rw [List.all_eq_true]
          intro p hp
          have hnp := List.find?_eq_none.mp hfm p hp
          simpa using hnp

theorem C3_manifest_key_equals_checksum_witness :
    recordKeysOk manifestW1 = true ∧
    (∀ mf mv : Manifest, validateManifest mf = .ok mv → mv = mf ∧ recordKeysOk mf = true) :=
  C3_manifest_key_equals_checksum manifestW sourceW eventW 1 2 manifestW1 (by decide) rfl

/-- Claim C7.  `add_record` is idempotent on the record map with respect to
the digest key: a second `add_record` whose event carries the same digest
overwrites the first record in place (last write wins), the final map holds
exactly one entry under that key, and the key set is unchanged by the repeated
call. -/
theorem C7_add_record_idempotent (m : Manifest) (src1 src2 : ETLSource)
    (ev1 ev2 : DownloadEvent) (t1 t2 t3 t4 : Nat) (m1 m2 : Manifest)
    (hnd : (dictKeys m.records).Nodup)
    (hsha : ev1.sha256 = ev2.sha256)
    (h1 : managerAddRecord m src1 ev1 t1 t2 = .ok m1)
    (h2 : managerAddRecord m1 src2 ev2 t3 t4 = .ok m2) :
    dictKeys m2.records = dictKeys m1.records ∧
    m2.records = dictInsert ev2.sha256 (recordOfEvent src2 ev2) m.records ∧
    hget m2.records ev2.sha256 = some (recordOfEvent src2 ev2) ∧
    m2.records.countP (fun p => p.1 == ev2.sha256) = 1 := by
  have hr1 := (managerAddRecord_ok_inversion m src1 ev1 t1 t2 m1 h1).1
  have hr2 := (managerAddRecord_ok_inversion m1 src2 ev2 t3 t4 m2 h2).1
  have hcollapse : m2.records = dictInsert ev2.sha256 (recordOfEvent src2 ev2) m.records := by
    rw [hr2, hr1, hsha, dictInsert_collapse]
  refine ⟨?_, hcollapse, ?_, ?_⟩
  · rw [hcollapse, hr1, hsha]
    exact dictKeys_insert_indep ev2.sha256 (recordOfEvent src2 ev2)
      (recordOfEvent src1 ev1) m.records
  · rw [hcollapse]
    exact hget_dictInsert_self ev2.sha256 (recordOfEvent src2 ev2) m.records
  · rw [hcollapse]
    exact countP_dictInsert_one ev2.sha256 (recordOfEvent src2 ev2) m.records hnd

theorem C7_add_record_idempotent_witness :
    dictKeys manifestW2.records = dictKeys manifestW1.records ∧
    manifestW2.records = dictInsert eventW2.sha256 (recordOfEvent sourceW eventW2)
      manifestW.records ∧
    hget manifestW2.records eventW2.sha256 = some (recordOfEvent sourceW eventW2) ∧
    manifestW2.records.countP (fun p => p.1 == eventW2.sha256) = 1 :=
  C7_add_record_idempotent manifestW sourceW sourceW eventW eventW2 1 2 3 4
    manifestW1 manifestW2 (by simp [manifestW, dictKeys]) rfl rfl rfl

/-- Claim C8.  After every successful `add_record` (which embeds a `save`) the
manifest metadata satisfies `total_records = len(records)` and its
`ts_updated` is refreshed to a time at or after the start of the operation;
and after every `save` the same two facts hold with `ts_updated` equal to the
save-time clock. -/
theorem C8_metadata_synchronized (m : Manifest) (src : ETLSource) (ev : DownloadEvent)
    (tStart tAdd tSave : Nat) (m' : Manifest)
    (hc1 : tStart ≤ tAdd) (hc2 : tAdd ≤ tSave)
    (hadd : managerAddRecord m src ev tAdd tSave = .ok m') :
    m'.metadata.total_records = m'.records.length ∧
    tStart ≤ m'.metadata.ts_updated ∧
    ∀ (m0 : Manifest) (t : Nat),
      (managerSaveState m0 t).metadata.total_records
        = (managerSaveState m0 t).records.length ∧
      (managerSaveState m0 t).metadata.ts_updated = t := by
  obtain ⟨-, htot, hts, -⟩ := managerAddRecord_ok_inversion m src ev tAdd tSave m' hadd
  refine ⟨htot, ?_, fun m0 t => ⟨rfl, rfl⟩⟩
  rw [hts]
  omega

theorem C8_metadata_synchronized_witness :
    manifestW1.metadata.total_records = manifestW1.records.length ∧
    0 ≤ manifestW1.metadata.ts_updated ∧
    ∀ (m0 : Manifest) (t : Nat),
      (managerSaveState m0 t).metadata.total_records
        = (managerSaveState m0 t).records.length ∧
      (managerSaveState m0 t).metadata.ts_updated = t :=
  C8_metadata_synchronized manifestW sourceW eventW 0 1 2 manifestW1
    (by omega) (by omega) rfl

/-- Claim C6 (code bug).  For every `(process, version)` pair — in particular
when the resolved manifest file does not exist — `ManifestManager.load` raises
`TypeError` at the `read_pydantic_model` call site, because it passes the
keyword argument `strict=False` which `read_pydantic_model` does not accept.
The fresh-manifest fallback the claim describes is dead code: when the file is
missing, `read_pydantic_model` itself would return `None` without writing, and
`_generate_new_manifest` would build an empty in-memory manifest with zero
total records, but `load` never reaches either. -/
theorem C6_load_always_raises_typeerror (mfs : MFS) (manifestsDir : List String)
    (process version : String) (now : Nat) :
    managerLoad mfs manifestsDir process version now
      = .error (.typeError ("read_pydantic_model() got an unexpected keyword argument "
          ++ sq ++ "strict" ++ sq)) ∧
    (mfs (generateManifestPath manifestsDir process version) = none →
      readPydanticManifest mfs (generateManifestPath manifestsDir process version)
        = .ok none) ∧
    (generateNewManifest process version now).records = [] ∧
    (generateNewManifest process version now).metadata.total_records = 0 := by
  refine ⟨rfl, ?_, rfl, rfl⟩
  intro hmissing
  simp [readPydanticManifest, hmissing]

theorem C6_load_always_raises_typeerror_witness :
    managerLoad mfsEmpty ["manifests"] "downloads" "1.0" 5
      = .error (.typeError ("read_pydantic_model() got an unexpected keyword argument "
          ++ sq ++ "strict" ++ sq)) ∧
    (mfsEmpty (generateManifestPath ["manifests"] "downloads" "1.0") = none →
      readPydanticManifest mfsEmpty (generateManifestPath ["manifests"] "downloads" "1.0")
        = .ok none) ∧
    (generateNewManifest "downloads" "1.0" 5).records = [] ∧
    (generateNewManifest "downloads" "1.0" 5).metadata.total_records = 0 :=
  C6_load_always_raises_typeerror mfsEmpty ["manifests"] "downloads" "1.0" 5

/-- Claim C9, counterexample.  The claim says construction succeeds only if
the digest is a LOWERCASE hex string; the pydantic pattern is
`^[a-fA-F0-9]{64}$`, so a digest of 64 uppercase hex characters is accepted. -/
theorem C9_counterexample_uppercase_digest_accepted :
    (mkDownloadEvent fsC9 pathC9 1 upperDigest none none "GzipRegime").isOk = true ∧
    specLowercaseSha256 upperDigest = false := by
  constructor
  · rfl
  · decide

/-- Claim C9 (amended).  `DownloadEvent` construction succeeds exactly when
the file path exists on the (embedded) filesystem, the file size is strictly
positive, and the digest is a 64-character hex string in either case
(`^[a-fA-F0-9]{64}$`); on any violation the constructor fails, so no such
record can be handed on, and a successful construction stores exactly the
validated values. -/
theorem C9_event_construction_validates (fs : FS) (p : PyPath) (size : Int)
    (sha : String) (t1 t2 : Option Nat) (regime : String) :
    ((∃ ev, mkDownloadEvent fs p size sha t1 t2 regime = .ok ev) ↔
      ((fs p).isSome = true ∧ 0 < size ∧ matchesSha256Pattern sha = true)) ∧
    (∀ ev, mkDownloadEvent fs p size sha t1 t2 regime = .ok ev →
      ev.file_path = p ∧ ev.file_size_bytes = size ∧ ev.sha256 = sha) := by
  constructor
  · constructor
    · rintro ⟨ev, hev⟩
      unfold mkDownloadEvent at hev
      split at hev
      · rename_i hcond
        simp only [Bool.and_eq_true, decide_eq_true_eq] at hcond
        exact ⟨hcond.1.1, hcond.1.2, hcond.2⟩
      · cases hev
    · rintro ⟨h1, h2, h3⟩
      refine ⟨⟨p, size, sha, t1, t2, regime⟩, ?_⟩
      unfold mkDownloadEvent
      rw [if_pos]
      simp only [Bool.and_eq_true, decide_eq_true_eq]
      exact ⟨⟨h1, h2⟩, h3⟩
  · intro ev hev
    unfold mkDownloadEvent at hev
    split at hev
    · cases hev
      exact ⟨rfl, rfl, rfl⟩
    · cases hev

end ED
